import Mathlib

/-!
Verification of the chroma-admin client core: the protocol client
(API version detection, path building, authentication headers, error
classification), the zod response schemas, the bulk retrieval helper,
and the embedding analysis algorithms (cosine similarity matrix, PCA
projection, k-means clustering).  Each definition is a shallow
embedding of the corresponding TypeScript source.
-/

namespace ChromaAdmin

/-! ### JSON values and the zod schema model (src/lib/zodSchemas.ts)

JSON numbers are modelled as rationals.  A zod schema is modelled as a
parse function from JSON to an optional decoded value; both a missing
key and an explicit JSON null are decoded to Option.none for a field
declared nullable().optional(), since the client code treats undefined
and null alike for these fields.
-/

inductive Json where
  | null
  | bool (b : Bool)
  | num (q : ℚ)
  | str (s : String)
  | arr (items : List Json)
  | obj (fields : List (String × Json))

/-- Metadata records (z.record(z.unknown())) are kept as raw field lists. -/
def Meta := List (String × Json)

/-- Object field lookup by key, first match wins. -/
def getField (fs : List (String × Json)) (key : String) : Option Json :=
  (fs.find? (fun f => f.1 == key)).map (fun f => f.2)

/-- Schema z.string(). -/
def parseStr : Json → Option String
  | .str s => some s
  | _ => Option.none

/-- Schema z.number(). -/
def parseNum : Json → Option ℚ
  | .num q => some q
  | _ => Option.none

/-- Schema z.array(inner): every element must parse. -/
def parseList {α : Type} (p : Json → Option α) : Json → Option (List α)
  | .arr xs => xs.mapM p
  | _ => Option.none

/-- Schema inner.nullable(): JSON null decodes to Option.none. -/
def parseNullable {α : Type} (p : Json → Option α) : Json → Option (Option α)
  | .null => some Option.none
  | j => (p j).map some

/-- Schema z.record(z.unknown()): any object is accepted verbatim. -/
def parseRecord : Json → Option Meta
  | .obj fs => some fs
  | _ => Option.none

/-- Field declared inner.nullable().optional(): a missing key or a JSON
null both decode to Option.none; otherwise the inner schema must accept. -/
def parseOptNullField {α : Type} (fs : List (String × Json)) (key : String)
    (p : Json → Option α) : Option (Option α) :=
  match getField fs key with
  | Option.none => some Option.none
  | some .null => some Option.none
  | some j => (p j).map some

/-- Decoded shape of GetItemsResponseSchema (an ItemBatch). -/
structure GetItemsResponse where
  ids : List String
  embeddings : Option (List (Option (List ℚ)))
  documents : Option (List (Option String))
  metadatas : Option (List (Option Meta))
  uris : Option (List (Option String))

/-- GetItemsResponseSchema.parse: ids is a required array of strings;
embeddings, documents, metadatas and uris are nullable optional arrays
of nullable elements.  No length relation between the arrays is checked. -/
def parseGetItemsResponse : Json → Option GetItemsResponse
  | .obj fs => do
      let idsJson ← getField fs "ids"
      let ids ← parseList parseStr idsJson
      let embeddings ← parseOptNullField fs "embeddings"
        (parseList (parseNullable (parseList parseNum)))
      let documents ← parseOptNullField fs "documents"
        (parseList (parseNullable parseStr))
      let metadatas ← parseOptNullField fs "metadatas"
        (parseList (parseNullable parseRecord))
      let uris ← parseOptNullField fs "uris"
        (parseList (parseNullable parseStr))
      pure ⟨ids, embeddings, documents, metadatas, uris⟩
  | _ => Option.none

/-- A present parallel array is aligned when its length equals the number
of ids; an absent array is trivially aligned. -/
def alignedLenB {α : Type} : Option (List α) → ℕ → Bool
  | Option.none, _ => true
  | some l, n => l.length == n

/-- The ItemBatch parallel-array invariant for documents, metadatas and
embeddings, as a decidable check. -/
def alignedBatchB (b : GetItemsResponse) : Bool :=
  alignedLenB b.documents b.ids.length &&
  alignedLenB b.metadatas b.ids.length &&
  alignedLenB b.embeddings b.ids.length

/-! ### Collections (zodSchemas.ts CollectionSchema) -/

structure Collection where
  id : String
  name : String
  metadata : Option Meta
  tenant : Option String
  database : Option String

/-! ### Authentication headers (src/lib/storage.ts)

The stored auth type and credentials; a credential field that is absent
or the empty string is falsy in the JavaScript sense.  The btoa base64
encoder is a browser builtin, passed in as an oracle.
-/

inductive AuthType where
  | none
  | token
  | basic
  | xChromaToken

structure AuthCredentials where
  token : Option String
  username : Option String
  password : Option String

/-- JavaScript truthiness of an optional string: undefined, null and the
empty string are falsy. -/
def jsTruthy : Option String → Bool
  | Option.none => false
  | some s => !s.isEmpty

/-- getAuthHeaders from storage.ts: builds the HTTP headers for the
configured auth type.  Headers are a list of name-value pairs. -/
def getAuthHeaders (btoa : String → String) (ty : AuthType)
    (creds : AuthCredentials) : List (String × String) :=
  match ty with
  | .token =>
      if jsTruthy creds.token then
        [("Authorization", "Bearer " ++ creds.token.getD "")]
      else []
  | .basic =>
      if jsTruthy creds.username then
        [("Authorization", "Basic " ++
          btoa (creds.username.getD "" ++ ":" ++ creds.password.getD ""))]
      else []
  | .xChromaToken =>
      if jsTruthy creds.token then
        [("X-Chroma-Token", creds.token.getD "")]
      else []
  | .none => []

/-! ### API version detection and path building (chromaClient) -/

inductive ApiVersion where
  | v2
  | v1
deriving DecidableEq

/-- The module-level detectedApiVersion cache is either unset or pinned. -/
def ApiVersionState := Option ApiVersion

def apiVersionString : ApiVersion → String
  | .v2 => "v2"
  | .v1 => "v1"

/-- apiPrefix(): the operation path root for the currently pinned version,
defaulting to v2 when detection has not run. -/
def apiPrefixFor (st : Option ApiVersion) : String :=
  match st.getD .v2 with
  | .v2 => "/api/v2/tenants/default_tenant/databases/default_database"
  | .v1 => "/api/v1"

/-- apiBase(): the heartbeat and version probe root. -/
def apiBaseFor (st : Option ApiVersion) : String :=
  "/api/" ++ apiVersionString (st.getD .v2)

/-- Version pinning logic of detectCapabilities: try the v2 heartbeat
probe first; on failure fall back to the v1 heartbeat probe; if both
fail the session stays pinned to v2. -/
def detectApiVersion (v2ok v1ok : Bool) : ApiVersion :=
  if v2ok then .v2 else if v1ok then .v1 else .v2

/-- Path of the listCollections operation. -/
def listCollectionsPath (st : Option ApiVersion) : String :=
  apiPrefixFor st ++ "/collections"

/-- Path of the getItems operation. -/
def getItemsPath (st : Option ApiVersion) (collectionId : String) : String :=
  apiPrefixFor st ++ "/collections/" ++ collectionId ++ "/get"

/-- Path of the queryCollection operation. -/
def queryPath (st : Option ApiVersion) (collectionId : String) : String :=
  apiPrefixFor st ++ "/collections/" ++ collectionId ++ "/query"

/-! ### Error classification (chromaFetch)

The source has a single error class ChromaError with a message, an
optional HTTP status and an isCors flag.  The catch clause of
chromaFetch classifies the possible failure events.
-/

structure ChromaError where
  message : String
  status : Option ℕ
  isCors : Bool
deriving DecidableEq

/-- Failure events that can reach the chromaFetch classification logic:
a non-2xx HTTP response, a zod schema failure, or a thrown JavaScript
error carrying a name and a message. -/
inductive FetchEvent where
  | httpFailure (status : ℕ) (bodyText : String) (statusText : String)
  | schemaFailure (detail : String)
  | thrown (name : String) (message : String)

/-- JavaScript String.prototype.includes, on character lists. -/
def charsInclude (hay pat : List Char) : Bool :=
  if pat.isPrefixOf hay then true
  else
    match hay with
    | [] => pat.isEmpty
    | _ :: t => charsInclude t pat

/-- JavaScript String.prototype.includes. -/
def jsIncludes (s pat : String) : Bool :=
  charsInclude s.toList pat.toList

/-- The probable-CORS signature test of chromaFetch. -/
def corsPattern (name message : String) : Bool :=
  name == "TypeError" &&
    (jsIncludes message "Failed to fetch" ||
     jsIncludes message "NetworkError" ||
     jsIncludes message "Load failed")

/-- The remediation guidance attached to a probable-CORS failure. -/
def corsGuidance : String :=
  "Network error – this is likely a CORS issue. " ++
  "Make sure the Chroma server has CORS enabled or use the Vite dev proxy."

/-- The error raised by chromaFetch for each failure event, following the
source: non-ok responses carry the status; zod failures get an invalid
shape message; thrown TypeErrors matching the CORS signature are flagged
isCors; AbortError (the timeout abort) yields the timed-out message;
anything else is passed through as a bare message. -/
def classifyFailure (timeoutMs : ℕ) : FetchEvent → ChromaError
  | .httpFailure status bodyText statusText =>
      { message := "Chroma HTTP " ++ toString status ++ ": " ++
          (if bodyText.isEmpty then statusText else bodyText)
        status := some status
        isCors := false }
  | .schemaFailure detail =>
      { message := "Invalid response shape: " ++ detail
        status := Option.none
        isCors := false }
  | .thrown name message =>
      if corsPattern name message then
        { message := corsGuidance, status := Option.none, isCors := true }
      else if name == "AbortError" then
        { message := "Request timed out after " ++ toString timeoutMs ++ "ms"
          status := Option.none
          isCors := false }
      else
        { message := message, status := Option.none, isCors := false }

/-- The observables of an error other than its message string: the
optional HTTP status and the isCors flag. -/
def errKindObs (e : ChromaError) : Option ℕ × Bool :=
  (e.status, e.isCors)

/-! ### Capability detection (detectCapabilities) -/

structure Capabilities where
  heartbeat : Bool
  version : Bool
  listCollections : Bool
  getCollection : Bool
  countCollection : Bool
  getItems : Bool
  query : Bool
  apiVersion : String
deriving DecidableEq

/-- Outcomes of the network probes and calls made by detectCapabilities,
supplied by the environment: each probe either succeeds or fails, and
the listCollections call either returns a list or throws. -/
structure ProbeEnv where
  v2HeartbeatOk : Bool
  v1HeartbeatOk : Bool
  heartbeatOk : Bool
  versionOk : Bool
  listCollectionsOk : Bool
  listCollectionsResult : Option (List Collection)
  getCollectionOk : Bool
  countCollectionOk : Bool

/-- detectCapabilities: pins the API version from the heartbeat probes,
probes heartbeat, version and listCollections, and only if at least one
collection exists probes get and count against it; with zero collections
every item-level capability is optimistically assumed true. -/
def detectCapabilities (env : ProbeEnv) : Capabilities :=
  let v := detectApiVersion env.v2HeartbeatOk env.v1HeartbeatOk
  let caps : Capabilities :=
    { heartbeat := env.heartbeatOk
      version := env.versionOk
      listCollections := env.listCollectionsOk
      getCollection := false
      countCollection := false
      getItems := false
      query := false
      apiVersion := apiVersionString v }
  if caps.listCollections then
    match env.listCollectionsResult with
    | some collections =>
        if collections.length > 0 then
          { caps with
              getCollection := env.getCollectionOk
              countCollection := env.countCollectionOk
              getItems := true
              query := true }
        else
          { caps with
              getCollection := true
              countCollection := true
              getItems := true
              query := true }
    | Option.none => caps
  else caps

/-! ### Bulk retrieval helper (getAllItems)

The server is modelled as a function from a collection id and an offset
to the page the getItems call at that offset returns; getAllItems pages
through the collection with page size 500, accumulating each parallel
array independently, logging every (limit, offset) request it issues and
every value reported to the progress callback.
-/

/-- Accumulator state of the getAllItems loop, together with the request
log and the progress reports (instrumentation of the network calls and
of the onProgress callback). -/
structure BulkAcc where
  allIds : List String
  allDocs : List (Option String)
  allMetas : List (Option Meta)
  allEmbeddings : List (Option (List ℚ))
  requests : List (ℕ × ℕ)
  progressReports : List ℕ

/-- One iteration of the getAllItems loop body at a given offset:
fetch the page, append ids unconditionally and each optional parallel
array only when present, then report the cumulative id count. -/
def bulkStep (page : GetItemsResponse) (offset : ℕ) (acc : BulkAcc) : BulkAcc :=
  let ids := acc.allIds ++ page.ids
  { allIds := ids
    allDocs := acc.allDocs ++ (page.documents.getD [])
    allMetas := acc.allMetas ++ (page.metadatas.getD [])
    allEmbeddings := acc.allEmbeddings ++ (page.embeddings.getD [])
    requests := acc.requests ++ [(500, offset)]
    progressReports := acc.progressReports ++ [ids.length] }

/-- The getAllItems loop: for offset = 0, 500, 1000, ... while
offset < totalCount, issue the page request and accumulate. -/
def getAllItemsGo (server : String → ℕ → GetItemsResponse)
    (collectionId : String) (totalCount : ℕ) (offset : ℕ)
    (acc : BulkAcc) : BulkAcc :=
  if offset < totalCount then
    getAllItemsGo server collectionId totalCount (offset + 500)
      (bulkStep (server collectionId offset) offset acc)
  else acc
termination_by totalCount - offset
decreasing_by omega

/-- getAllItems: run the paging loop from offset 0 and assemble the
result batch, emitting each optional array only when at least one page
contributed to it.  Besides the batch, the final accumulator is returned
so that the issued requests and progress reports can be inspected. -/
def getAllItems (server : String → ℕ → GetItemsResponse)
    (collectionId : String) (totalCount : ℕ) : GetItemsResponse × BulkAcc :=
  let acc := getAllItemsGo server collectionId totalCount 0 ⟨[], [], [], [], [], []⟩
  ({ ids := acc.allIds
     documents := if acc.allDocs.length > 0 then some acc.allDocs else Option.none
     metadatas := if acc.allMetas.length > 0 then some acc.allMetas else Option.none
     embeddings := if acc.allEmbeddings.length > 0 then some acc.allEmbeddings else Option.none
     uris := Option.none }, acc)

/-- The pages that getAllItems visits starting at a given offset:
page i is the response at offset + 500 * i. -/
def pageSeq (server : String → ℕ → GetItemsResponse) (collectionId : String)
    (offset : ℕ) (r : ℕ) : List GetItemsResponse :=
  (List.range r).map (fun i => server collectionId (offset + 500 * i))

/-- Number of page requests the loop issues when the remaining count is
c: the ceiling of c / 500. -/
def numPages (c : ℕ) : ℕ := (c + 499) / 500

/-! ### Cosine similarity matrix (SimilarityHeatmap.tsx)

Vector arithmetic is modelled over the reals.  The source loops run over
index ranges shared by both vectors, which zipWith captures exactly for
the equal-dimension vectors the component feeds in.
-/

/-- Dot product accumulated by the cosineSimilarity loop. -/
noncomputable def dotList (a b : List ℝ) : ℝ := (List.zipWith (· * ·) a b).sum

/-- Squared magnitude accumulated by the cosineSimilarity loop. -/
noncomputable def magSqList (a : List ℝ) : ℝ := (List.zipWith (· * ·) a a).sum

/-- cosineSimilarity from SimilarityHeatmap.tsx: dot product over the
product of magnitudes, with a guard returning 0 when the denominator is
zero. -/
noncomputable def cosineSimilarity (a b : List ℝ) : ℝ :=
  let denom := Real.sqrt (magSqList a) * Real.sqrt (magSqList b)
  if denom = 0 then 0 else dotList a b / denom

/-- The validData sampling loop: walk the embeddings in original order,
keeping each present one, and stop once cap items are collected. -/
def validData (cap : ℕ) (embs : List (Option (List ℝ))) : List (List ℝ) :=
  match embs with
  | [] => []
  | e :: rest =>
      if cap = 0 then []
      else
        match e with
        | some v => v :: validData (cap - 1) rest
        | Option.none => validData cap rest

/-- The similarity matrix construction: an n by n grid with the diagonal
set to 1 and, for each unordered pair i < j, the cosine similarity of
vectors i and j written into both cells. -/
noncomputable def simMatrix (vd : List (List ℝ)) : List (List ℝ) :=
  (List.range vd.length).map (fun i =>
    (List.range vd.length).map (fun j =>
      if i = j then 1
      else if i < j then cosineSimilarity (vd.getD i []) (vd.getD j [])
      else cosineSimilarity (vd.getD j []) (vd.getD i [])))

/-- Cell (i, j) of the similarity matrix, 0 outside the grid. -/
noncomputable def simEntry (vd : List (List ℝ)) (i j : ℕ) : ℝ :=
  ((simMatrix vd).getD i []).getD j 0

/-! ### PCA projection (EmbeddingScatter.tsx pcaProject)

The two Math.random() seeded start vectors of the power iterations are
supplied by an oracle rand: rand c j is the j-th coordinate of the start
vector of power-iteration call c, already shifted by -0.5.
-/

/-- One step of the power iteration: accumulate every row weighted by its
projection on the current direction, then renormalize; a zero norm is
replaced by 1 as in the JavaScript fallback. -/
noncomputable def powerIterStep (rows : List (List ℝ)) (dim : ℕ)
    (vec : List ℝ) : List ℝ :=
  let newVec := rows.foldl
    (fun acc row => List.zipWith (fun a r => a + dotList row vec * r) acc row)
    (List.replicate dim 0)
  let norm0 := Real.sqrt ((newVec.map (fun v => v * v)).sum)
  let norm := if norm0 = 0 then 1 else norm0
  newVec.map (fun v => v / norm)

/-- The power iteration: 100 fixed steps from the random start vector. -/
noncomputable def powerIteration (rows : List (List ℝ)) (dim : ℕ)
    (init : List ℝ) : List ℝ :=
  (powerIterStep rows dim)^[100] init

/-- Projection of every centered vector onto a component. -/
noncomputable def projectOnto (centered : List (List ℝ)) (component : List ℝ) :
    List ℝ :=
  centered.map (fun vec => dotList vec component)

/-- The dimension read off the first input vector (embeddings[0].length). -/
def pcaDim (embeddings : List (List ℝ)) : ℕ := (embeddings.headD []).length

/-- The coordinate-wise mean of the input vectors. -/
noncomputable def pcaMean (embeddings : List (List ℝ)) : List ℝ :=
  (embeddings.foldl (fun acc vec => List.zipWith (· + ·) acc vec)
      (List.replicate (pcaDim embeddings) 0)).map
    (fun s => s / (embeddings.length : ℝ))

/-- Mean-centering of one input vector. -/
noncomputable def centerVec (embeddings : List (List ℝ)) (vec : List ℝ) :
    List ℝ :=
  List.zipWith (fun v m => v - m) vec (pcaMean embeddings)

/-- The mean-centered data, one centered vector per input vector. -/
noncomputable def pcaCentered (embeddings : List (List ℝ)) : List (List ℝ) :=
  embeddings.map (centerVec embeddings)

/-- The first principal direction: power iteration on the centered data
from the first random start vector. -/
noncomputable def pcaPc1 (rand : ℕ → ℕ → ℝ) (embeddings : List (List ℝ)) :
    List ℝ :=
  powerIteration (pcaCentered embeddings) (pcaDim embeddings)
    ((List.range (pcaDim embeddings)).map (rand 0))

/-- The deflated data: each centered vector minus its first-component
contribution, paired with its own projection as in the source. -/
noncomputable def pcaDeflected (rand : ℕ → ℕ → ℝ) (embeddings : List (List ℝ)) :
    List (List ℝ) :=
  List.zipWith
    (fun vec p => List.zipWith (fun v c => v - p * c) vec (pcaPc1 rand embeddings))
    (pcaCentered embeddings)
    (projectOnto (pcaCentered embeddings) (pcaPc1 rand embeddings))

/-- The second principal direction: power iteration on the deflated data
from the second random start vector. -/
noncomputable def pcaPc2 (rand : ℕ → ℕ → ℝ) (embeddings : List (List ℝ)) :
    List ℝ :=
  powerIteration (pcaDeflected rand embeddings) (pcaDim embeddings)
    ((List.range (pcaDim embeddings)).map (rand 1))

/-- pcaProject from EmbeddingScatter.tsx: mean-center, extract the first
principal direction by power iteration, project for x, deflate, repeat
for y, and pair the coordinates in input order.  The let-bound stages of
the source are lifted to the named definitions above; the computation is
unchanged. -/
noncomputable def pcaProject (rand : ℕ → ℕ → ℝ) (embeddings : List (List ℝ)) :
    List (ℝ × ℝ) :=
  if embeddings.length = 0 then []
  else
    List.zipWith (fun x y => (x, y))
      (projectOnto (pcaCentered embeddings) (pcaPc1 rand embeddings))
      (projectOnto (pcaDeflected rand embeddings) (pcaPc2 rand embeddings))

/-- The output pair pcaProject produces for one input vector: its
centered form projected onto the first direction for x, and its deflated
form projected onto the second direction for y. -/
noncomputable def pcaOutputAt (rand : ℕ → ℕ → ℝ) (embeddings : List (List ℝ))
    (vec : List ℝ) : ℝ × ℝ :=
  let c := centerVec embeddings vec
  let d := List.zipWith
    (fun v comp => v - dotList c (pcaPc1 rand embeddings) * comp)
    c (pcaPc1 rand embeddings)
  (dotList c (pcaPc1 rand embeddings), dotList d (pcaPc2 rand embeddings))

/-! ### K-means clustering (EmbeddingScatter.tsx kMeans)

The Math.random() draws are supplied by oracles: pickFirst is the index
of the first seeded centroid, pickR c is the uniform draw used for the
weighted selection of centroid c, and fallbackIdx c is the uniform index
drawn when the weighted selection loop completes without choosing.
-/

/-- Squared Euclidean distance between two 2D points. -/
noncomputable def sqDist (p q : ℝ × ℝ) : ℝ := (p.1 - q.1)^2 + (p.2 - q.2)^2

/-- Squared distance from a point to its nearest already-chosen centroid,
as computed by the minD scan (the centroid list is never empty when this
runs; the empty case is given a junk value). -/
noncomputable def minSqDistTo (cents : List (ℝ × ℝ)) (p : ℝ × ℝ) : ℝ :=
  match cents with
  | [] => 0
  | c :: rest =>
      rest.foldl (fun m cen => if sqDist p cen < m then sqDist p cen else m)
        (sqDist p c)

/-- The weighted selection scan: subtract each squared distance from r in
turn and pick the first index where the remainder drops to 0 or below. -/
noncomputable def weightedSelect (r : ℝ) (dists : List ℝ) : Option ℕ :=
  match dists with
  | [] => Option.none
  | d :: rest =>
      if r - d ≤ 0 then some 0
      else (weightedSelect (r - d) rest).map (fun i => i + 1)

/-- The k-means++ style seeding loop: the first centroid is the point at
pickFirst; each further centroid c (c = 1, ..., k-1) is chosen with
probability proportional to the squared distance to the nearest chosen
centroid, with a uniform fallback when the scan selects nothing. -/
noncomputable def seedCentroids (pickFirst : ℕ) (pickR : ℕ → ℝ)
    (fallbackIdx : ℕ → ℕ) (points : List (ℝ × ℝ)) (k : ℕ) : List (ℝ × ℝ) :=
  (List.range (k - 1)).foldl
    (fun cents c0 =>
      let c := c0 + 1
      let dists := points.map (minSqDistTo cents)
      let total := dists.sum
      match weightedSelect (pickR c * total) dists with
      | some i => cents ++ [points.getD i (0, 0)]
      | Option.none => cents ++ [points.getD (fallbackIdx c) (0, 0)])
    [points.getD pickFirst (0, 0)]

/-- The assignment scan for one point: the first centroid index in
[0, k) attaining the minimal squared distance, starting from best = 0
with an infinite initial minD (modelled by Option.none). -/
noncomputable def assignPoint (cents : List (ℝ × ℝ)) (k : ℕ) (p : ℝ × ℝ) : ℕ :=
  ((List.range k).foldl
    (fun (acc : ℕ × Option ℝ) c =>
      let d := sqDist p (cents.getD c (0, 0))
      match acc.2 with
      | Option.none => (c, some d)
      | some m => if d < m then (c, some d) else acc)
    (0, Option.none)).1

/-- Labels for all points against the current centroids. -/
noncomputable def assignAll (points : List (ℝ × ℝ)) (cents : List (ℝ × ℝ))
    (k : ℕ) : List ℕ :=
  points.map (assignPoint cents k)

/-- The points assigned to cluster c. -/
def clusterMembers (points : List (ℝ × ℝ)) (labels : List ℕ) (c : ℕ) :
    List (ℝ × ℝ) :=
  (points.zip labels).filterMap (fun pl => if pl.2 = c then some pl.1 else Option.none)

/-- The centroid update for cluster c: the mean of its members, or the
old centroid unchanged when the cluster is empty. -/
noncomputable def updatedCentroid (points : List (ℝ × ℝ)) (labels : List ℕ)
    (c : ℕ) (old : ℝ × ℝ) : ℝ × ℝ :=
  let members := clusterMembers points labels c
  if members.length > 0 then
    ((members.map (fun p => p.1)).sum / (members.length : ℝ),
     (members.map (fun p => p.2)).sum / (members.length : ℝ))
  else old

/-- All centroids after one update pass. -/
noncomputable def updateCentroids (points : List (ℝ × ℝ)) (labels : List ℕ)
    (cents : List (ℝ × ℝ)) (k : ℕ) : List (ℝ × ℝ) :=
  (List.range k).map (fun c => updatedCentroid points labels c (cents.getD c (0, 0)))

/-- The early-stopping test: some nonempty cluster moved its centroid. -/
def centroidsChanged (points : List (ℝ × ℝ)) (labels : List ℕ)
    (cents : List (ℝ × ℝ)) (k : ℕ) : Prop :=
  ∃ c, c < k ∧ (clusterMembers points labels c).length > 0 ∧
    updatedCentroid points labels c (cents.getD c (0, 0)) ≠ cents.getD c (0, 0)

open scoped Classical in
/-- The main k-means loop: up to maxIter assign/update rounds, stopping
early as soon as no centroid moved; the labels assigned in the final
round are returned together with the updated centroids. -/
noncomputable def kMeansLoop (points : List (ℝ × ℝ)) (k : ℕ) :
    ℕ → List ℕ → List (ℝ × ℝ) → List ℕ × List (ℝ × ℝ)
  | 0, labels, cents => (labels, cents)
  | fuel + 1, _labels, cents =>
      let newLabels := assignAll points cents k
      let newCents := updateCentroids points newLabels cents k
      if centroidsChanged points newLabels cents k then
        kMeansLoop points k fuel newLabels newCents
      else (newLabels, newCents)

/-- kMeans from EmbeddingScatter.tsx: seed k centroids, then iterate
assignment and update for at most maxIter rounds.  The labels start as
all zeros, so a run with maxIter = 0 returns the zero assignment and the
untouched seeded centroids. -/
noncomputable def kMeans (pickFirst : ℕ) (pickR : ℕ → ℝ) (fallbackIdx : ℕ → ℕ)
    (points : List (ℝ × ℝ)) (k : ℕ) (maxIter : ℕ) : List ℕ × List (ℝ × ℝ) :=
  if points.length = 0 then ([], [])
  else
    kMeansLoop points k maxIter (List.replicate points.length 0)
      (seedCentroids pickFirst pickR fallbackIdx points k)

/-! ## Theorems -/

/-- C3: if the v2 heartbeat probe fails and the v1 probe succeeds the
session is pinned to v1 and paths are built with the /api/v1 prefix and
no tenant or database segment; if the v2 probe succeeds the session is
pinned to v2 and paths carry the default tenant and database segment.
The prefix is recomputed from the pinned version at each path build. -/
theorem detect_version_pinning_and_prefix (b : Bool) (cid : String) :
    detectApiVersion false true = ApiVersion.v1 ∧
    apiPrefixFor (some (detectApiVersion false true)) = "/api/v1" ∧
    listCollectionsPath (some ApiVersion.v1) = "/api/v1/collections" ∧
    getItemsPath (some ApiVersion.v1) cid =
      "/api/v1/collections/" ++ cid ++ "/get" ∧
    detectApiVersion true b = ApiVersion.v2 ∧
    apiPrefixFor (some (detectApiVersion true b)) =
      "/api/v2/tenants/default_tenant/databases/default_database" ∧
    listCollectionsPath (some ApiVersion.v2) =
      "/api/v2/tenants/default_tenant/databases/default_database/collections" ∧
    getItemsPath (some ApiVersion.v2) cid =
      "/api/v2/tenants/default_tenant/databases/default_database/collections/"
        ++ cid ++ "/get" := by
  refine ⟨rfl, rfl, rfl, ?_, rfl, rfl, rfl, ?_⟩ <;>
    simp [getItemsPath, apiPrefixFor]

/-- C9: when the listCollections probe succeeds and the call returns an
empty list, detectCapabilities reports getItems, query, getCollection
and countCollection all true even though those endpoints were never
invoked. -/
theorem detectCapabilities_zero_collections_optimistic (env : ProbeEnv)
    (hlist : env.listCollectionsOk = true)
    (hres : env.listCollectionsResult = some []) :
    (detectCapabilities env).getItems = true ∧
    (detectCapabilities env).query = true ∧
    (detectCapabilities env).getCollection = true ∧
    (detectCapabilities env).countCollection = true := by
  simp [detectCapabilities, hlist, hres]

/-- Witness for C9 at a concrete probe environment with an empty
collection list. -/
theorem detectCapabilities_zero_collections_optimistic_witness :
    (detectCapabilities
      ⟨true, false, true, true, true, some [], false, false⟩).getItems = true ∧
    (detectCapabilities
      ⟨true, false, true, true, true, some [], false, false⟩).query = true ∧
    (detectCapabilities
      ⟨true, false, true, true, true, some [], false, false⟩).getCollection = true ∧
    (detectCapabilities
      ⟨true, false, true, true, true, some [], false, false⟩).countCollection = true :=
  detectCapabilities_zero_collections_optimistic
    ⟨true, false, true, true, true, some [], false, false⟩ rfl rfl

/-- C10: getAuthHeaders emits at most one header, and when the selected
auth type is missing its required credential (token auth without a
truthy token, basic auth without a truthy username) it emits no header
at all. -/
theorem getAuthHeaders_at_most_one_and_unauthenticated_on_missing :
    (∀ (btoa : String → String) (ty : AuthType) (creds : AuthCredentials),
      (getAuthHeaders btoa ty creds).length ≤ 1) ∧
    (∀ (btoa : String → String) (creds : AuthCredentials),
      jsTruthy creds.token = false →
        getAuthHeaders btoa AuthType.token creds = [] ∧
        getAuthHeaders btoa AuthType.xChromaToken creds = []) ∧
    (∀ (btoa : String → String) (creds : AuthCredentials),
      jsTruthy creds.username = false →
        getAuthHeaders btoa AuthType.basic creds = []) := by
  refine ⟨?_, ?_, ?_⟩
  · intro btoa ty creds
    cases ty <;> simp only [getAuthHeaders] <;>
      first
      | (split <;> simp)
      | simp
  · intro btoa creds h
    simp [getAuthHeaders, h]
  · intro btoa creds h
    simp [getAuthHeaders, h]

/-- Witness for C10 at concrete credential stores with the required
credential missing. -/
theorem getAuthHeaders_missing_credentials_witness :
    getAuthHeaders id AuthType.token
      ⟨Option.none, Option.none, Option.none⟩ = [] ∧
    getAuthHeaders id AuthType.xChromaToken
      ⟨some "", Option.none, Option.none⟩ = [] ∧
    getAuthHeaders id AuthType.basic
      ⟨some "tok", Option.none, some "pw"⟩ = [] :=
  ⟨(getAuthHeaders_at_most_one_and_unauthenticated_on_missing.2.1 id
      ⟨Option.none, Option.none, Option.none⟩ rfl).1,
   (getAuthHeaders_at_most_one_and_unauthenticated_on_missing.2.1 id
      ⟨some "", Option.none, Option.none⟩ rfl).2,
   getAuthHeaders_at_most_one_and_unauthenticated_on_missing.2.2 id
      ⟨some "tok", Option.none, some "pw"⟩ rfl⟩

/-- C4 counterexample: a timeout abort, a schema validation failure and
a generic network failure are all classified with the same non-message
observables (no status, isCors false), so the caller cannot tell the
kinds apart without inspecting the message string.  This refutes the
claim that the four kinds are distinguishable without message
inspection. -/
theorem timeout_kind_indistinguishable_counterexample :
    errKindObs (classifyFailure 15000
        (FetchEvent.thrown "AbortError" "signal is aborted without reason")) =
      errKindObs (classifyFailure 15000
        (FetchEvent.schemaFailure "Expected string, received number")) ∧
    errKindObs (classifyFailure 15000
        (FetchEvent.thrown "AbortError" "signal is aborted without reason")) =
      errKindObs (classifyFailure 15000
        (FetchEvent.thrown "Error" "connection reset")) := by
  constructor <;> rfl

/-- C4 amended: every failure raised by chromaFetch is one ChromaError
value whose fields follow a fixed taxonomy: HTTP failures carry their
status and are never CORS-flagged; schema failures carry the invalid
shape message with no status; failures matching the CORS signature are
flagged isCors with the remediation guidance; the timeout abort yields
the timed-out message; but timeout, validation and generic network
failures share status = none and isCors = false, so those three are
distinguishable only via the message string. -/
theorem chroma_error_taxonomy (t : ℕ) :
    (∀ s txt stxt,
      (classifyFailure t (FetchEvent.httpFailure s txt stxt)).status = some s ∧
      (classifyFailure t (FetchEvent.httpFailure s txt stxt)).isCors = false) ∧
    (∀ d, classifyFailure t (FetchEvent.schemaFailure d) =
      ⟨"Invalid response shape: " ++ d, Option.none, false⟩) ∧
    (∀ name msg, corsPattern name msg = true →
      classifyFailure t (FetchEvent.thrown name msg) =
        ⟨corsGuidance, Option.none, true⟩) ∧
    (∀ msg, corsPattern "AbortError" msg = false ∧
      classifyFailure t (FetchEvent.thrown "AbortError" msg) =
        ⟨"Request timed out after " ++ toString t ++ "ms", Option.none, false⟩) ∧
    (∀ d msg n m,
      errKindObs (classifyFailure t (FetchEvent.schemaFailure d)) =
        (Option.none, false) ∧
      errKindObs (classifyFailure t (FetchEvent.thrown "AbortError" msg)) =
        (Option.none, false) ∧
      (corsPattern n m = false → n ≠ "AbortError" →
        errKindObs (classifyFailure t (FetchEvent.thrown n m)) =
          (Option.none, false))) := by
  have habort : ∀ msg, corsPattern "AbortError" msg = false := by
    intro msg
    simp [corsPattern]
  refine ⟨fun s txt stxt => ⟨rfl, rfl⟩, fun d => rfl, ?_, ?_, ?_⟩
  · intro name msg h
    simp [classifyFailure, h]
  · intro msg
    refine ⟨habort msg, ?_⟩
    simp [classifyFailure, habort msg]
  · intro d msg n m
    refine ⟨rfl, ?_, ?_⟩
    · simp [classifyFailure, errKindObs, habort msg]
    · intro hc hn
      have hbeq : (n == "AbortError") = false := by
        simpa using hn
      simp [classifyFailure, errKindObs, hc, hbeq]

/-- Witness for C4 amended, instantiating the CORS-signature branch and
the generic-failure branch at concrete events. -/
theorem chroma_error_taxonomy_witness :
    classifyFailure 15000 (FetchEvent.thrown "TypeError" "NetworkError when attempting to fetch resource.") =
      ⟨corsGuidance, Option.none, true⟩ ∧
    errKindObs (classifyFailure 15000 (FetchEvent.thrown "Error" "boom")) =
      (Option.none, false) :=
  ⟨(chroma_error_taxonomy 15000).2.2.1 "TypeError"
      "NetworkError when attempting to fetch resource." (by decide),
   ((chroma_error_taxonomy 15000).2.2.2.2 "d" "m" "Error" "boom").2.2
      (by decide) (by decide)⟩

/-- C5: a fetch rejection that is a TypeError whose message contains
"Failed to fetch" is classified as a CORS-flagged error carrying the
remediation guidance. -/
theorem failed_to_fetch_classified_cors (t : ℕ) (msg : String)
    (h : jsIncludes msg "Failed to fetch" = true) :
    (classifyFailure t (FetchEvent.thrown "TypeError" msg)).isCors = true ∧
    (classifyFailure t (FetchEvent.thrown "TypeError" msg)).message =
      corsGuidance := by
  have hc : corsPattern "TypeError" msg = true := by
    simp [corsPattern, h]
  simp [classifyFailure, hc]

/-- Witness for C5 at the literal TypeError message thrown by browsers. -/
theorem failed_to_fetch_classified_cors_witness :
    (classifyFailure 15000
      (FetchEvent.thrown "TypeError" "Failed to fetch")).isCors = true ∧
    (classifyFailure 15000
      (FetchEvent.thrown "TypeError" "Failed to fetch")).message =
      corsGuidance :=
  failed_to_fetch_classified_cors 15000 "Failed to fetch" (by decide)

/-- C1 counterexample: the get-items schema accepts a response whose
documents array is shorter than ids (it validates element types only,
never lengths), so schema acceptance does not imply the parallel-array
alignment invariant. -/
theorem schema_accepts_misaligned_batch_counterexample :
    parseGetItemsResponse
      (Json.obj [("ids", Json.arr [Json.str "a", Json.str "b"]),
                 ("documents", Json.arr [Json.str "x"])]) =
      some ⟨["a", "b"], Option.none, some [some "x"], Option.none, Option.none⟩ ∧
    alignedBatchB
      ⟨["a", "b"], Option.none, some [some "x"], Option.none, Option.none⟩ =
      false := by
  constructor <;> rfl

/-- Any property of the accumulator preserved by every in-range loop body
step is preserved by the whole getAllItems loop. -/
theorem getAllItemsGo_inv (server : String → ℕ → GetItemsResponse)
    (cid : String) (tc : ℕ) (P : BulkAcc → Prop)
    (hstep : ∀ o acc, o < tc → P acc → P (bulkStep (server cid o) o acc)) :
    ∀ fuel offset acc, tc - offset ≤ fuel → P acc →
      P (getAllItemsGo server cid tc offset acc) := by
  intro fuel
  induction fuel with
  | zero =>
      intro offset acc hle hP
      rw [getAllItemsGo]
      have hnl : ¬ offset < tc := by omega
      simp only [hnl, if_false]
      exact hP
  | succ n ih =>
      intro offset acc hle hP
      rw [getAllItemsGo]
      by_cases h : offset < tc
      · simp only [h, if_true]
        exact ih (offset + 500) _ (by omega) (hstep offset acc h hP)
      · simp only [h, if_false]
        exact hP

/-- The length contributed by an optional parallel array, given its
alignment and its presence flag. -/
theorem alignedLenB_getD_length {α : Type} (o : Option (List α)) (n : ℕ)
    (b : Bool) (hA : alignedLenB o n = true) (hS : o.isSome = b) :
    (o.getD []).length = if b then n else 0 := by
  cases o with
  | none =>
      simp only [Option.isSome_none] at hS
      subst hS
      simp
  | some l =>
      simp only [Option.isSome_some] at hS
      subst hS
      simp only [alignedLenB, beq_iff_eq] at hA
      simpa using hA

/-- Emitting an accumulated array (only when nonempty) preserves
alignment with the accumulated ids. -/
theorem alignedLenB_emit {α : Type} (l : List α) (n : ℕ) (b : Bool)
    (h : l.length = if b then n else 0) :
    alignedLenB (if l.length > 0 then some l else Option.none) n = true := by
  split
  · next hpos =>
      cases b with
      | false => simp only [Bool.false_eq_true, if_false] at h; omega
      | true => simp [alignedLenB, h]
  · simp [alignedLenB]

/-- C1 amended: schema validation does not enforce the length
invariant (see the counterexample); the bulk export helper getAllItems
does return an aligned batch provided every fetched page is itself
aligned and each optional field is present on every page or on none:
then each present parallel array of the result has length ids.length. -/
theorem getAllItems_aligned_under_uniform_pages
    (server : String → ℕ → GetItemsResponse) (cid : String) (tc : ℕ)
    (dp mp ep : Bool)
    (hpages : ∀ o, o < tc →
      alignedBatchB (server cid o) = true ∧
      (server cid o).documents.isSome = dp ∧
      (server cid o).metadatas.isSome = mp ∧
      (server cid o).embeddings.isSome = ep) :
    alignedBatchB (getAllItems server cid tc).1 = true := by
  have hstep : ∀ o acc, o < tc →
      (acc.allDocs.length = (if dp then acc.allIds.length else 0) ∧
       acc.allMetas.length = (if mp then acc.allIds.length else 0) ∧
       acc.allEmbeddings.length = (if ep then acc.allIds.length else 0)) →
      ((bulkStep (server cid o) o acc).allDocs.length =
        (if dp then (bulkStep (server cid o) o acc).allIds.length else 0) ∧
       (bulkStep (server cid o) o acc).allMetas.length =
        (if mp then (bulkStep (server cid o) o acc).allIds.length else 0) ∧
       (bulkStep (server cid o) o acc).allEmbeddings.length =
        (if ep then (bulkStep (server cid o) o acc).allIds.length else 0)) := by
    intro o acc ho hP
    obtain ⟨ha, hd, hm, he⟩ := hpages o ho
    unfold alignedBatchB at ha
    rw [Bool.and_eq_true, Bool.and_eq_true] at ha
    obtain ⟨⟨hadoc, hameta⟩, haemb⟩ := ha
    have hdoc := alignedLenB_getD_length _ _ _ hadoc hd
    have hmeta := alignedLenB_getD_length _ _ _ hameta hm
    have hemb := alignedLenB_getD_length _ _ _ haemb he
    obtain ⟨hP1, hP2, hP3⟩ := hP
    refine ⟨?_, ?_, ?_⟩ <;>
      simp only [bulkStep, List.length_append, hP1, hP2, hP3, hdoc, hmeta, hemb]
    · cases dp <;> simp
    · cases mp <;> simp
    · cases ep <;> simp
  have hfin := getAllItemsGo_inv server cid tc _ hstep tc 0 ⟨[], [], [], [], [], []⟩
    (by omega) (by simp)
  obtain ⟨h1, h2, h3⟩ := hfin
  unfold getAllItems alignedBatchB
  rw [Bool.and_eq_true, Bool.and_eq_true]
  exact ⟨⟨alignedLenB_emit _ _ _ h1, alignedLenB_emit _ _ _ h2⟩,
    alignedLenB_emit _ _ _ h3⟩

/-- A server page used by the bulk retrieval witnesses: each page holds
one id and one aligned document. -/
def alignedPageServer : String → ℕ → GetItemsResponse :=
  fun _ o => ⟨[toString o], Option.none, some [some "doc"], Option.none, Option.none⟩

/-- Witness for C1 amended: a two-page export from a server whose pages
are aligned and uniformly carry documents yields an aligned batch. -/
theorem getAllItems_aligned_witness :
    alignedBatchB (getAllItems alignedPageServer "col" 600).1 = true :=
  getAllItems_aligned_under_uniform_pages alignedPageServer "col" 600
    true false false
    (fun o _ => by simp [alignedPageServer, alignedBatchB, alignedLenB])

/-- Splitting off the first page of a page sequence. -/
theorem pageSeq_succ (server : String → ℕ → GetItemsResponse) (cid : String)
    (offset r : ℕ) :
    pageSeq server cid offset (r + 1) =
      server cid offset :: pageSeq server cid (offset + 500) r := by
  unfold pageSeq
  rw [List.range_succ_eq_map]
  simp only [List.map_cons, Nat.mul_zero, Nat.add_zero, List.map_map]
  congr 1
  apply List.map_congr_left
  intro i _
  simp only [Function.comp_apply]
  congr 1
  omega

/-- A page sequence of length zero is empty. -/
theorem pageSeq_zero (server : String → ℕ → GetItemsResponse) (cid : String)
    (offset : ℕ) : pageSeq server cid offset 0 = [] := by
  simp [pageSeq]

/-- Splitting the cumulative id count of a page sequence at its first
page. -/
theorem pageSeq_len_sum_succ (server : String → ℕ → GetItemsResponse)
    (cid : String) (offset m : ℕ) :
    ((pageSeq server cid offset (m + 1)).map (fun p => p.ids.length)).sum =
      (server cid offset).ids.length +
        ((pageSeq server cid (offset + 500) m).map (fun p => p.ids.length)).sum := by
  rw [pageSeq_succ]
  simp

/-- The request log, accumulated ids and progress reports of the
getAllItems loop in closed form: starting at a given offset the loop
issues one request of size 500 per remaining page at offsets
offset, offset + 500, ..., appends the ids of those pages in order, and
reports the cumulative id count after every page. -/
theorem getAllItemsGo_spec (server : String → ℕ → GetItemsResponse)
    (cid : String) (tc : ℕ) :
    ∀ fuel offset acc, tc - offset ≤ fuel →
      (getAllItemsGo server cid tc offset acc).requests =
        acc.requests ++ (List.range (numPages (tc - offset))).map
          (fun i => (500, offset + 500 * i)) ∧
      (getAllItemsGo server cid tc offset acc).allIds =
        acc.allIds ++
          ((pageSeq server cid offset (numPages (tc - offset))).map
            (fun p => p.ids)).flatten ∧
      (getAllItemsGo server cid tc offset acc).progressReports =
        acc.progressReports ++ (List.range (numPages (tc - offset))).map
          (fun i => acc.allIds.length +
            ((pageSeq server cid offset (i + 1)).map
              (fun p => p.ids.length)).sum) := by
  intro fuel
  induction fuel with
  | zero =>
      intro offset acc hle
      have hnl : ¬ offset < tc := by omega
      have h0 : tc - offset = 0 := by omega
      have hnp : numPages 0 = 0 := by simp [numPages]
      rw [getAllItemsGo]
      simp [hnl, h0, hnp, pageSeq]
  | succ n ih =>
      intro offset acc hle
      rw [getAllItemsGo]
      by_cases h : offset < tc
      · simp only [h, if_true]
        obtain ⟨hreq, hids, hprog⟩ :=
          ih (offset + 500) (bulkStep (server cid offset) offset acc) (by omega)
        have hnp : numPages (tc - offset) = numPages (tc - (offset + 500)) + 1 := by
          unfold numPages
          omega
        refine ⟨?_, ?_, ?_⟩
        · rw [hreq, hnp, List.range_succ_eq_map]
          simp only [bulkStep, List.map_cons, Nat.mul_zero, Nat.add_zero,
            List.map_map, List.append_assoc, List.cons_append, List.nil_append,
            List.singleton_append]
          congr 2
          apply List.map_congr_left
          intro i _
          simp only [Function.comp_apply]
          congr 1
          omega
        · rw [hids, hnp, pageSeq_succ]
          simp only [bulkStep, List.map_cons, List.flatten_cons, List.append_assoc]
        · rw [hprog, hnp, List.range_succ_eq_map]
          simp only [bulkStep, List.map_cons, List.map_map, List.append_assoc,
            List.cons_append, List.nil_append, List.singleton_append]
          congr 1
          congr 1
          · rw [pageSeq_len_sum_succ, pageSeq_zero]
            simp [List.length_append]
          · apply List.map_congr_left
            intro i _
            simp only [Function.comp_apply, Nat.succ_eq_add_one]
            simp only [pageSeq_len_sum_succ, List.length_append]
            omega
      · have h0 : tc - offset = 0 := by omega
        have hnp : numPages 0 = 0 := by simp [numPages]
        simp only [h, if_false, h0, hnp, pageSeq, List.range_zero, List.map_nil,
          List.flatten_nil, List.append_nil]
        exact ⟨trivial, trivial, trivial⟩

/-- C2: for totalCount > 0 getAllItems issues exactly
ceil(totalCount / 500) sequential page requests, each with limit 500, at
the strictly increasing offsets 0, 500, 1000, ..., and reports the
cumulative fetched count after every page; in particular against a
server paginating in full chunks of 500 a totalCount of 1200 yields
exactly 3 requests, 1200 accumulated records and the progress reports
500, 1000, 1200. -/
theorem getAllItems_pagination (server : String → ℕ → GetItemsResponse)
    (cid : String) (tc : ℕ) (htc : 0 < tc) :
    (getAllItems server cid tc).2.requests =
      (List.range (numPages tc)).map (fun i => (500, 500 * i)) ∧
    (getAllItems server cid tc).2.requests.length = numPages tc ∧
    List.Pairwise (fun a b : ℕ × ℕ => a.2 < b.2)
      (getAllItems server cid tc).2.requests ∧
    (getAllItems server cid tc).2.progressReports =
      (List.range (numPages tc)).map (fun i =>
        ((pageSeq server cid 0 (i + 1)).map (fun p => p.ids.length)).sum) ∧
    ((∀ o, (server cid o).ids.length = min 500 (1200 - o)) → tc = 1200 →
      (getAllItems server cid tc).2.requests.length = 3 ∧
      (getAllItems server cid tc).1.ids.length = 1200 ∧
      (getAllItems server cid tc).2.progressReports = [500, 1000, 1200]) := by
  obtain ⟨hreq, hids, hprog⟩ :=
    getAllItemsGo_spec server cid tc tc 0 ⟨[], [], [], [], [], []⟩ (by omega)
  simp only [List.nil_append, Nat.sub_zero, Nat.zero_add, List.length_nil,
    Nat.zero_add] at hreq hids hprog
  have e2 : (getAllItems server cid tc).2 =
      getAllItemsGo server cid tc 0 ⟨[], [], [], [], [], []⟩ := rfl
  have e1 : (getAllItems server cid tc).1.ids =
      (getAllItemsGo server cid tc 0 ⟨[], [], [], [], [], []⟩).allIds := rfl
  refine ⟨?_, ?_, ?_, ?_, ?_⟩
  · rw [e2, hreq]
  · rw [e2, hreq]
    simp
  · rw [e2, hreq]
    rw [List.pairwise_map]
    exact (List.pairwise_lt_range _).imp (by intro a b hab; simpa using hab)
  · rw [e2, hprog]
  · intro hfull h1200
    subst h1200
    have hnp3 : numPages 1200 = 3 := by norm_num [numPages]
    have h0 : (server cid 0).ids.length = 500 := by
      have := hfull 0
      simpa using this
    have h500 : (server cid 500).ids.length = 500 := by
      have := hfull 500
      simpa using this
    have h1000 : (server cid 1000).ids.length = 200 := by
      have := hfull 1000
      simpa using this
    refine ⟨?_, ?_, ?_⟩
    · rw [e2, hreq]
      simp [hnp3]
    · rw [e1, hids, hnp3]
      simp only [List.length_flatten, List.map_map]
      simp [pageSeq, List.range_succ, h0, h500, h1000]
    · rw [e2, hprog, hnp3]
      simp [pageSeq, List.range_succ, h0, h500, h1000]

/-- A mock server paginating in full chunks of 500 out of 1200 records. -/
def fullChunkServer : String → ℕ → GetItemsResponse :=
  fun _ o =>
    ⟨List.replicate (min 500 (1200 - o)) "x",
     Option.none, Option.none, Option.none, Option.none⟩

/-- Witness for C2 at the full-chunk mock server with totalCount 1200. -/
theorem getAllItems_pagination_witness :
    (getAllItems fullChunkServer "col" 1200).2.requests.length = 3 ∧
    (getAllItems fullChunkServer "col" 1200).1.ids.length = 1200 ∧
    (getAllItems fullChunkServer "col" 1200).2.progressReports =
      [500, 1000, 1200] :=
  (getAllItems_pagination fullChunkServer "col" 1200 (by norm_num)).2.2.2.2
    (fun o => by simp [fullChunkServer]) rfl

/-- The self-zip of the magnitude accumulation is a list of squares. -/
theorem zipWith_mul_self_eq (a : List ℝ) :
    List.zipWith (· * ·) a a = a.map (fun x => x * x) := by
  induction a with
  | nil => rfl
  | cons x xs ih => simp [ih]

/-- A squared magnitude is nonnegative. -/
theorem magSqList_nonneg (a : List ℝ) : 0 ≤ magSqList a := by
  unfold magSqList
  rw [zipWith_mul_self_eq]
  apply List.sum_nonneg
  intro x hx
  obtain ⟨y, _, rfl⟩ := List.mem_map.mp hx
  exact mul_self_nonneg y

/-- Cauchy-Schwarz for the list dot product and magnitudes accumulated
by the cosineSimilarity loops. -/
theorem dotList_sq_le_magSq (a : List ℝ) : ∀ b : List ℝ,
    dotList a b ^ 2 ≤ magSqList a * magSqList b := by
  induction a with
  | nil =>
      intro b
      simp [dotList, magSqList]
  | cons x xs ih =>
      intro b
      cases b with
      | nil =>
          simp [dotList, magSqList]
      | cons y ys =>
          have IH : dotList xs ys ^ 2 ≤ magSqList xs * magSqList ys := ih ys
          have hA : 0 ≤ magSqList xs := magSqList_nonneg xs
          have hB : 0 ≤ magSqList ys := magSqList_nonneg ys
          have hexp :
              dotList (x :: xs) (y :: ys) = x * y + dotList xs ys ∧
              magSqList (x :: xs) = x * x + magSqList xs ∧
              magSqList (y :: ys) = y * y + magSqList ys := by
            refine ⟨?_, ?_, ?_⟩ <;> simp [dotList, magSqList]
          obtain ⟨h1, h2, h3⟩ := hexp
          rw [h1, h2, h3]
          set D := dotList xs ys with hD
          set A := magSqList xs with hA2
          set B := magSqList ys with hB2
          rcases eq_or_lt_of_le hB with hB0 | hBpos
          · have hD2 : D ^ 2 = 0 :=
              le_antisymm (by nlinarith) (sq_nonneg D)
            have hDz : D = 0 := by
              have := sq_eq_zero_iff.mp hD2
              exact this
            rw [hDz, ← hB0]
            nlinarith [mul_nonneg hA (sq_nonneg y), sq_nonneg (x * y)]
          · nlinarith [sq_nonneg (x * B - y * D),
              mul_nonneg (sq_nonneg y) (sub_nonneg.mpr IH),
              mul_nonneg hBpos.le (sub_nonneg.mpr IH), hBpos]

/-- The dot product is symmetric in its two vectors. -/
theorem dotList_comm (a b : List ℝ) : dotList a b = dotList b a := by
  unfold dotList
  rw [List.zipWith_comm_of_comm]
  intro x y
  ring

/-- Every cosine similarity value lies in the interval [-1, 1]. -/
theorem cosineSimilarity_mem_Icc (a b : List ℝ) :
    -1 ≤ cosineSimilarity a b ∧ cosineSimilarity a b ≤ 1 := by
  unfold cosineSimilarity
  by_cases h : Real.sqrt (magSqList a) * Real.sqrt (magSqList b) = 0
  · simp only [h, if_pos]
    norm_num
  · simp only [h, if_false]
    have hA := magSqList_nonneg a
    have hB := magSqList_nonneg b
    have hdnn : 0 ≤ Real.sqrt (magSqList a) * Real.sqrt (magSqList b) :=
      mul_nonneg (Real.sqrt_nonneg _) (Real.sqrt_nonneg _)
    have hdpos : 0 < Real.sqrt (magSqList a) * Real.sqrt (magSqList b) :=
      lt_of_le_of_ne hdnn (Ne.symm h)
    have hdsq : (Real.sqrt (magSqList a) * Real.sqrt (magSqList b)) ^ 2 =
        magSqList a * magSqList b := by
      rw [mul_pow, Real.sq_sqrt hA, Real.sq_sqrt hB]
    have hcs : dotList a b ^ 2 ≤
        (Real.sqrt (magSqList a) * Real.sqrt (magSqList b)) ^ 2 := by
      rw [hdsq]
      exact dotList_sq_le_magSq a b
    constructor
    · rw [le_div_iff₀ hdpos]
      nlinarith
    · rw [div_le_one hdpos]
      nlinarith

/-- A pair with a zero-magnitude member has cosine similarity zero. -/
theorem cosineSimilarity_zero_mag (a b : List ℝ)
    (h : magSqList a = 0 ∨ magSqList b = 0) : cosineSimilarity a b = 0 := by
  unfold cosineSimilarity
  rcases h with h | h <;> simp [h]

/-- The validData sampling loop returns the first at-most-cap present
embeddings in original order. -/
theorem validData_eq_take_filterMap (cap : ℕ) (embs : List (Option (List ℝ))) :
    validData cap embs = (embs.filterMap id).take cap := by
  induction embs generalizing cap with
  | nil => simp [validData]
  | cons e rest ih =>
      cases e with
      | none =>
          cases cap with
          | zero => simp [validData]
          | succ c => simp [validData, ih]
      | some v =>
          cases cap with
          | zero => simp [validData]
          | succ c => simp [validData, ih]

/-- Closed form of an in-range matrix cell. -/
theorem simEntry_eq (vd : List (List ℝ)) (i j : ℕ) (hi : i < vd.length)
    (hj : j < vd.length) :
    simEntry vd i j =
      if i = j then 1
      else if i < j then cosineSimilarity (vd.getD i []) (vd.getD j [])
      else cosineSimilarity (vd.getD j []) (vd.getD i []) := by
  unfold simEntry simMatrix
  simp [List.getD_eq_getElem?_getD, List.getElem?_map, List.getElem?_range,
    hi, hj]

/-- Cells outside the grid read as the default 0. -/
theorem simEntry_out_of_range (vd : List (List ℝ)) (i j : ℕ)
    (h : vd.length ≤ i ∨ vd.length ≤ j) : simEntry vd i j = 0 := by
  unfold simEntry simMatrix
  rcases h with h | h
  · simp [List.getD_eq_getElem?_getD, List.getElem?_map,
      List.getElem?_eq_none, List.length_range, h]
  · by_cases hi : i < vd.length
    · simp [List.getD_eq_getElem?_getD, List.getElem?_map,
        List.getElem?_range, hi, List.getElem?_eq_none, List.length_range, h]
    · have h2 : vd.length ≤ i := by omega
      simp [List.getD_eq_getElem?_getD, List.getElem?_map,
        List.getElem?_eq_none, List.length_range, h2]

/-- C6: the similarity matrix is computed over the first at-most-cap
present embeddings in original order; it is square, its diagonal entries
equal 1 exactly, it is symmetric, every entry lies in [-1, 1], and the
cosine similarity of any pair in which either vector has zero magnitude
is 0.  The properties hold for arbitrary vectors, hence in particular
for equal-dimension ones. -/
theorem similarityMatrix_properties (cap : ℕ) (embs : List (Option (List ℝ))) :
    validData cap embs = (embs.filterMap id).take cap ∧
    (simMatrix (validData cap embs)).length = (validData cap embs).length ∧
    ((simMatrix (validData cap embs)).map List.length =
      List.replicate (validData cap embs).length (validData cap embs).length) ∧
    (∀ i, i < (validData cap embs).length →
      simEntry (validData cap embs) i i = 1) ∧
    (∀ i j, simEntry (validData cap embs) i j =
      simEntry (validData cap embs) j i) ∧
    (∀ i j, -1 ≤ simEntry (validData cap embs) i j ∧
      simEntry (validData cap embs) i j ≤ 1) ∧
    (∀ a b : List ℝ, magSqList a = 0 ∨ magSqList b = 0 →
      cosineSimilarity a b = 0) := by
  set vd := validData cap embs with hvd
  refine ⟨validData_eq_take_filterMap cap embs, ?_, ?_, ?_, ?_, ?_,
    cosineSimilarity_zero_mag⟩
  · simp [simMatrix]
  · refine List.eq_replicate_iff.mpr ⟨by simp [simMatrix], ?_⟩
    intro r hr
    rw [List.mem_map] at hr
    obtain ⟨row, hrow, rfl⟩ := hr
    unfold simMatrix at hrow
    obtain ⟨k, _, rfl⟩ := List.mem_map.mp hrow
    simp
  · intro i hi
    rw [simEntry_eq vd i i hi hi]
    simp
  · intro i j
    by_cases hi : i < vd.length
    · by_cases hj : j < vd.length
      · rw [simEntry_eq vd i j hi hj, simEntry_eq vd j i hj hi]
        rcases lt_trichotomy i j with hij | hij | hij
        · have hne : i ≠ j := Nat.ne_of_lt hij
          have hne' : j ≠ i := Nat.ne_of_gt hij
          have hnlt : ¬ j < i := by omega
          simp [hne, hne', hij, hnlt]
        · simp [hij]
        · have hne : i ≠ j := Nat.ne_of_gt hij
          have hne' : j ≠ i := Nat.ne_of_lt hij
          have hnlt : ¬ i < j := by omega
          simp [hne, hne', hij, hnlt]
      · rw [simEntry_out_of_range vd i j (Or.inr (by omega)),
          simEntry_out_of_range vd j i (Or.inl (by omega))]
    · rw [simEntry_out_of_range vd i j (Or.inl (by omega)),
        simEntry_out_of_range vd j i (Or.inr (by omega))]
  · intro i j
    by_cases hi : i < vd.length
    · by_cases hj : j < vd.length
      · rw [simEntry_eq vd i j hi hj]
        split
        · norm_num
        · split
          · exact cosineSimilarity_mem_Icc _ _
          · exact cosineSimilarity_mem_Icc _ _
      · rw [simEntry_out_of_range vd i j (Or.inr (by omega))]
        norm_num
    · rw [simEntry_out_of_range vd i j (Or.inl (by omega))]
      norm_num

/-- Witness for C6: the diagonal cell of a concrete two-vector sample is
1 and a zero-magnitude pair has similarity 0. -/
theorem similarityMatrix_properties_witness :
    simEntry (validData 2 [some [(1 : ℝ), 0], some [0, 1]]) 0 0 = 1 ∧
    cosineSimilarity [(0 : ℝ)] [1] = 0 := by
  have h := similarityMatrix_properties 2 [some [(1 : ℝ), 0], some [0, 1]]
  refine ⟨h.2.2.2.1 0 ?_, h.2.2.2.2.2.2 [0] [1] (Or.inl ?_)⟩
  · rw [h.1]
    simp
  · norm_num [magSqList]

/-- C7: pcaProject returns exactly one (x, y) pair per input vector and
in input order: the output is the input list mapped by the per-vector
projection, so the i-th output pair is the projection of the i-th input
vector; the output length equals the input length, and empty input
yields empty output. -/
theorem pcaProject_length_and_order (rand : ℕ → ℕ → ℝ)
    (embeddings : List (List ℝ)) :
    pcaProject rand embeddings =
      embeddings.map (pcaOutputAt rand embeddings) ∧
    (pcaProject rand embeddings).length = embeddings.length ∧
    pcaProject rand ([] : List (List ℝ)) = [] := by
  have hmain : pcaProject rand embeddings =
      embeddings.map (pcaOutputAt rand embeddings) := by
    by_cases h : embeddings.length = 0
    · rw [List.length_eq_zero] at h
      subst h
      simp [pcaProject]
    · unfold pcaProject
      simp only [h, if_false]
      unfold pcaDeflected
      rw [show projectOnto (pcaCentered embeddings) (pcaPc1 rand embeddings) =
          (pcaCentered embeddings).map
            (fun vec => dotList vec (pcaPc1 rand embeddings)) from rfl]
      rw [List.zipWith_map_right, List.zipWith_same]
      rw [show projectOnto
            ((pcaCentered embeddings).map (fun vec =>
              List.zipWith
                (fun v c => v - dotList vec (pcaPc1 rand embeddings) * c)
                vec (pcaPc1 rand embeddings)))
            (pcaPc2 rand embeddings) =
          ((pcaCentered embeddings).map (fun vec =>
              List.zipWith
                (fun v c => v - dotList vec (pcaPc1 rand embeddings) * c)
                vec (pcaPc1 rand embeddings))).map
            (fun vec => dotList vec (pcaPc2 rand embeddings)) from rfl]
      rw [List.map_map, List.zipWith_map_left, List.zipWith_map_right,
        List.zipWith_same]
      unfold pcaCentered
      rw [List.map_map]
      apply List.map_congr_left
      intro v _
      simp [pcaOutputAt, Function.comp]
  refine ⟨hmain, ?_, by simp [pcaProject]⟩
  rw [hmain]
  simp

/-- A fold whose step always appends one element grows by the length of
the folded list. -/
theorem foldl_grow_one_length {α β : Type} (f : List α → β → List α)
    (hf : ∀ acc b, (f acc b).length = acc.length + 1) :
    ∀ (l : List β) (init : List α),
      (l.foldl f init).length = init.length + l.length := by
  intro l
  induction l with
  | nil => intro init; simp
  | cons b rest ih =>
      intro init
      rw [List.foldl_cons, ih, hf, List.length_cons]
      omega

/-- Every iteration of the seeding loop appends exactly one centroid. -/
theorem seedCentroids_length (pickFirst : ℕ) (pickR : ℕ → ℝ)
    (fallbackIdx : ℕ → ℕ) (points : List (ℝ × ℝ)) (k : ℕ) (hk : 1 ≤ k) :
    (seedCentroids pickFirst pickR fallbackIdx points k).length = k := by
  unfold seedCentroids
  rw [foldl_grow_one_length]
  · simp
    omega
  · intro acc b
    dsimp only
    split <;> simp

/-- The assignment scan always returns an index below k when k ≥ 1. -/
theorem assignPoint_lt (cents : List (ℝ × ℝ)) (k : ℕ) (hk : 1 ≤ k)
    (p : ℝ × ℝ) : assignPoint cents k p < k := by
  unfold assignPoint
  have haux : ∀ (l : List ℕ) (acc : ℕ × Option ℝ),
      (∀ c ∈ l, c < k) → acc.1 < k →
      ((l.foldl
        (fun (acc : ℕ × Option ℝ) c =>
          let d := sqDist p (cents.getD c (0, 0))
          match acc.2 with
          | Option.none => (c, some d)
          | some m => if d < m then (c, some d) else acc)
        acc).1) < k := by
    intro l
    induction l with
    | nil => intro acc _ h; exact h
    | cons c rest ih =>
        intro acc hmem hacc
        rw [List.foldl_cons]
        apply ih
        · intro x hx
          exact hmem x (List.mem_cons_of_mem c hx)
        · have hc : c < k := hmem c (List.mem_cons_self c rest)
          cases acc.2 with
          | none => exact hc
          | some m =>
              dsimp only
              split
              · exact hc
              · exact hacc
  apply haux
  · intro c hc
    exact List.mem_range.mp hc
  · omega

/-- The number of centroids produced by one update pass. -/
theorem updateCentroids_length (points : List (ℝ × ℝ)) (labels : List ℕ)
    (cents : List (ℝ × ℝ)) (k : ℕ) :
    (updateCentroids points labels cents k).length = k := by
  simp [updateCentroids]

/-- Invariants of the k-means iteration loop: labels stay one per point
and below k, and the centroids are either untouched (zero fuel) or the
output of an update pass of length k. -/
theorem kMeansLoop_spec (points : List (ℝ × ℝ)) (k : ℕ) (hk : 1 ≤ k) :
    ∀ (fuel : ℕ) (labels : List ℕ) (cents : List (ℝ × ℝ)),
      labels.length = points.length → (∀ l ∈ labels, l < k) →
      ((kMeansLoop points k fuel labels cents).1.length = points.length ∧
       (∀ l ∈ (kMeansLoop points k fuel labels cents).1, l < k) ∧
       ((kMeansLoop points k fuel labels cents).2 = cents ∨
        (kMeansLoop points k fuel labels cents).2.length = k)) := by
  intro fuel
  induction fuel with
  | zero =>
      intro labels cents hlen hmem
      exact ⟨hlen, hmem, Or.inl rfl⟩
  | succ n ih =>
      intro labels cents hlen hmem
      rw [kMeansLoop]
      have hnewlen : (assignAll points cents k).length = points.length := by
        simp [assignAll]
      have hnewmem : ∀ l ∈ assignAll points cents k, l < k := by
        intro l hl
        obtain ⟨p, _, rfl⟩ := List.mem_map.mp hl
        exact assignPoint_lt cents k hk p
      split
      · obtain ⟨g1, g2, g3⟩ := ih (assignAll points cents k)
          (updateCentroids points (assignAll points cents k) cents k)
          hnewlen hnewmem
        refine ⟨g1, g2, Or.inr ?_⟩
        rcases g3 with g | g
        · rw [g, updateCentroids_length]
        · exact g
      · exact ⟨hnewlen, hnewmem, Or.inr (updateCentroids_length _ _ _ _)⟩

/-- C8: for a nonempty point list and k ≥ 1, kMeans returns one label
per point with every label in [0, k) and exactly k centroids; with
maxIter = 0 it returns the unmoved seeded centroids and the initial
all-zero assignment. -/
theorem kMeans_cluster_contract (pickFirst : ℕ) (pickR : ℕ → ℝ)
    (fallbackIdx : ℕ → ℕ) (points : List (ℝ × ℝ)) (k maxIter : ℕ)
    (hne : points ≠ []) (hk : 1 ≤ k) :
    (kMeans pickFirst pickR fallbackIdx points k maxIter).1.length =
      points.length ∧
    (∀ l ∈ (kMeans pickFirst pickR fallbackIdx points k maxIter).1, l < k) ∧
    (kMeans pickFirst pickR fallbackIdx points k maxIter).2.length = k ∧
    (maxIter = 0 →
      (kMeans pickFirst pickR fallbackIdx points k maxIter).1 =
        List.replicate points.length 0 ∧
      (kMeans pickFirst pickR fallbackIdx points k maxIter).2 =
        seedCentroids pickFirst pickR fallbackIdx points k) := by
  unfold kMeans
  have hlen0 : ¬ points.length = 0 := by
    simpa [List.length_eq_zero] using hne
  simp only [hlen0, if_false]
  have hseed := seedCentroids_length pickFirst pickR fallbackIdx points k hk
  obtain ⟨g1, g2, g3⟩ := kMeansLoop_spec points k hk maxIter
    (List.replicate points.length 0)
    (seedCentroids pickFirst pickR fallbackIdx points k)
    (by simp)
    (by
      intro l hl
      rw [List.eq_of_mem_replicate hl]
      omega)
  refine ⟨g1, g2, ?_, ?_⟩
  · rcases g3 with g | g
    · rw [g]
      exact hseed
    · exact g
  · intro h0
    subst h0
    exact ⟨rfl, rfl⟩

/-- Witness for C8 at a concrete one-point input with k = 1 and zero
iterations. -/
theorem kMeans_cluster_contract_witness :
    (kMeans 0 (fun _ => 0) (fun _ => 0) [((0 : ℝ), (0 : ℝ))] 1 0).1.length = 1 ∧
    (∀ l ∈ (kMeans 0 (fun _ => 0) (fun _ => 0) [((0 : ℝ), (0 : ℝ))] 1 0).1,
      l < 1) ∧
    (kMeans 0 (fun _ => 0) (fun _ => 0) [((0 : ℝ), (0 : ℝ))] 1 0).2.length = 1 ∧
    (0 = 0 →
      (kMeans 0 (fun _ => 0) (fun _ => 0) [((0 : ℝ), (0 : ℝ))] 1 0).1 =
        List.replicate 1 0 ∧
      (kMeans 0 (fun _ => 0) (fun _ => 0) [((0 : ℝ), (0 : ℝ))] 1 0).2 =
        seedCentroids 0 (fun _ => 0) (fun _ => 0) [((0 : ℝ), (0 : ℝ))] 1) := by
  have h := kMeans_cluster_contract 0 (fun _ => 0) (fun _ => 0)
    [((0 : ℝ), (0 : ℝ))] 1 0 (by simp) (by omega)
  simpa using h

end ChromaAdmin
